import Mathlib

/-!
Shallow embedding of `src/YouChat.py` (YouChat-AI-Python-Client), together
with theorems settling the specification claims about it.

The embedding translates:
* `prepare_query` (lines 107-115): the sequential `str.replace` encoder;
* `validate_configuration` / `YouChat.__init__` (lines 95-105);
* `handle_response` (lines 138-185): the streaming line decoder, including
  the `json.loads` call, modelled by an executable JSON parser below.

Python strings are modelled as Lean `String`; `str.replace` is modelled by
`listReplace` on the underlying character lists (left-to-right scan over
non-overlapping occurrences, exactly Python's semantics for the non-empty
patterns used by the source).
-/

/-- Fuel-based worker for `listReplace`.  The fuel is always instantiated
with the length of the subject list, which is enough for the recursion to
never run out (each step consumes at least one character when the pattern
is non-empty, as at every call site in the source). -/
def listReplaceAux (pat rep : List Char) : Nat → List Char → List Char
  | 0, s => s
  | Nat.succ f, s =>
    match s with
    | [] => []
    | x :: xs =>
      if pat.isPrefixOf (x :: xs) then
        rep ++ listReplaceAux pat rep f (xs.drop (pat.length - 1))
      else
        x :: listReplaceAux pat rep f xs

/-- Python `subject.replace(pat, rep)` for a non-empty pattern `pat`:
replace every occurrence found in one left-to-right scan. -/
def listReplace (pat rep s : List Char) : List Char :=
  listReplaceAux pat rep s.length s

/-- Python `str.replace` lifted to Lean `String`. -/
def pyReplace (s pat rep : String) : String :=
  String.mk (listReplace pat.toList rep.toList s.toList)

/-- The apostrophe character (source line 110, key `'`). -/
def squote : Char := Char.ofNat 39

/-- The double-quote character. -/
def dquote : Char := Char.ofNat 34

/-- The `replacements` dictionary of `prepare_query` (lines 109-112), in
its Python insertion order. -/
def replacements : List (Char × String) :=
  [(' ', "%20"), ('?', "%3F"), ('&', "%26"), (dquote, "%22"), (squote, "%27"),
   (',', "%2C"), (';', "%3B"), (':', "%3A"), ('/', "%2F"), ('\\', "%5C"),
   ('|', "%7C"), ('=', "%3D"), ('+', "%2B")]

/-- Embedding of `YouChat.prepare_query` (lines 107-115): successively apply
`query.replace(char, replacement)` for each entry of `replacements`. -/
def prepare_query (query : String) : String :=
  replacements.foldl (fun q p => pyReplace q (String.mk [p.1]) p.2) query

/-- Modelled from the spec: the per-character substitution table of §4.2
(the 13 listed characters map to their percent-escapes, every other
character passes through unchanged).  Used to compare `prepare_query`
against the spec's description. -/
def specSubst (c : Char) : List Char :=
  if c = ' ' then "%20".toList
  else if c = '?' then "%3F".toList
  else if c = '&' then "%26".toList
  else if c = dquote then "%22".toList
  else if c = squote then "%27".toList
  else if c = ',' then "%2C".toList
  else if c = ';' then "%3B".toList
  else if c = ':' then "%3A".toList
  else if c = '/' then "%2F".toList
  else if c = '\\' then "%5C".toList
  else if c = '|' then "%7C".toList
  else if c = '=' then "%3D".toList
  else if c = '+' then "%2B".toList
  else [c]

/-- Apply `specSubst` to every character and concatenate. -/
def encodeList : List Char → List Char
  | [] => []
  | c :: cs => specSubst c ++ encodeList cs

/-- The 13 special characters of the encoder, in source order. -/
def specialChars : List Char := replacements.map Prod.fst

/-- Single-character substitution: the effect of one `str.replace(c, rep)`
pass when the pattern is the single character `c`. -/
def subst1 (c : Char) (rep : List Char) : List Char → List Char
  | [] => []
  | x :: xs => (if x = c then rep else [x]) ++ subst1 c rep xs

/-- Sequentially apply single-character replaces, mirroring the
`for char, replacement in replacements.items()` loop on character lists. -/
def applyAll : List (Char × String) → List Char → List Char
  | [], l => l
  | p :: rest, l => applyAll rest (subst1 p.1 p.2.toList l)

/-- Embedding of `AIModelEnum` (lines 21-51): the closed enumeration of supported
backend model tags. -/
inductive AIModelEnum where
  | OPENAI_O1
  | OPENAI_O1_PREVIEW
  | OPENAI_O1_MINI
  | GPT_4O_MINI
  | GPT_4O
  | GPT_4_TURBO
  | GPT_4
  | GROK_2
  | CLAUDE_3_5_SONNET
  | CLAUDE_3_OPUS
  | CLAUDE_3_SONNET
  | CLAUDE_3_5_HAIKU
  | CLAUDE_3_HAIKU
  | LLAMA_3_3_70B
  | LLAMA_3_2_90B
  | LLAMA_3_2_11B
  | LLAMA_3_1_405B
  | LLAMA_3_1_70B
  | LLAMA_3
  | MISTRAL_LARGE_2
  | GEMINI_1_5_FLASH
  | GEMINI_1_5_PRO
  | DBRX_INSTRUCT
  | QWEN2_5_72B
  | QWEN2_5_CODER_32B
  | COMMAND_R
  | COMMAND_R_PLUS
  | SOLAR_1_MINI
  | DOLPHIN_2_5
deriving DecidableEq

/-- String value of each `AIModelEnum` member (lines 23-51). -/
def AIModelEnum.value : AIModelEnum → String
  | .OPENAI_O1 => "openai_o1"
  | .OPENAI_O1_PREVIEW => "openai_o1_preview"
  | .OPENAI_O1_MINI => "openai_o1_mini"
  | .GPT_4O_MINI => "gpt_4o_mini"
  | .GPT_4O => "gpt_4o"
  | .GPT_4_TURBO => "gpt_4_turbo"
  | .GPT_4 => "gpt_4"
  | .GROK_2 => "grok_2"
  | .CLAUDE_3_5_SONNET => "claude_3_5_sonnet"
  | .CLAUDE_3_OPUS => "claude_3_opus"
  | .CLAUDE_3_SONNET => "claude_3_sonnet"
  | .CLAUDE_3_5_HAIKU => "claude_3_5_haiku"
  | .CLAUDE_3_HAIKU => "claude_3_haiku"
  | .LLAMA_3_3_70B => "llama3_3_70b"
  | .LLAMA_3_2_90B => "llama3_2_90b"
  | .LLAMA_3_2_11B => "llama3_2_11b"
  | .LLAMA_3_1_405B => "llama3_1_405b"
  | .LLAMA_3_1_70B => "llama3_1_70b"
  | .LLAMA_3 => "llama3"
  | .MISTRAL_LARGE_2 => "mistral_large_2"
  | .GEMINI_1_5_FLASH => "gemini_1_5_flash"
  | .GEMINI_1_5_PRO => "gemini_1_5_pro"
  | .DBRX_INSTRUCT => "databricks_dbrx_instruct"
  | .QWEN2_5_72B => "qwen2p5_72b"
  | .QWEN2_5_CODER_32B => "qwen2p5_coder_32b"
  | .COMMAND_R => "command_r"
  | .COMMAND_R_PLUS => "command_r_plus"
  | .SOLAR_1_MINI => "solar_1_mini"
  | .DOLPHIN_2_5 => "dolphin_2_5"

/-- Embedding of `ChatModeEnum` (lines 54-58): the closed enumeration of chat modes. -/
inductive ChatModeEnum where
  | CUSTOM
  | RESEARCH
  | DEFAULT
deriving DecidableEq

/-- String value of each `ChatModeEnum` member. -/
def ChatModeEnum.value : ChatModeEnum → String
  | .CUSTOM => "custom"
  | .RESEARCH => "research"
  | .DEFAULT => "default"

/-- A Python value tested with `isinstance(·, E)` for an enum class `E`:
either an actual member of the enumeration, or any other runtime value
(recorded by its textual representation). -/
inductive PyValue (α : Type) where
  | member (a : α)
  | nonMember (repr : String)

/-- Whether the Python `isinstance` check against the enum class passes. -/
def PyValue.isMember : PyValue α → Bool
  | PyValue.member _ => true
  | PyValue.nonMember _ => false

/-- Embedding of `YouChatConfig` (lines 61-67).  The `model` and `chat_mode` slots hold
arbitrary Python values, validated only at `validate_configuration`. -/
structure YouChatConfig where
  model : PyValue AIModelEnum
  chat_mode : PyValue ChatModeEnum
  query : String
  prints : Bool := true

/-- The two configuration exceptions (lines 11-18). -/
inductive YouChatError where
  | ModelNotAvailableError
  | ChatModeNotAvailableError
deriving DecidableEq

/-- Embedding of `YouChat.validate_configuration` (lines 99-105): raise
`ModelNotAvailableError` when the model is not an `AIModelEnum` instance,
then `ChatModeNotAvailableError` when the chat mode is not a
`ChatModeEnum` instance; otherwise succeed.  Nothing else is checked. -/
def validate_configuration (config : YouChatConfig) : Except YouChatError Unit :=
  match config.model with
  | PyValue.nonMember _ => Except.error YouChatError.ModelNotAvailableError
  | PyValue.member _ =>
    match config.chat_mode with
    | PyValue.nonMember _ => Except.error YouChatError.ChatModeNotAvailableError
    | PyValue.member _ => Except.ok ()

/-- The `YouChat` object: it stores the configuration (line 96). -/
structure YouChat where
  config : YouChatConfig

/-- Embedding of `YouChat.__init__` (lines 95-97): store the configuration and validate
it; the constructor returns no object when validation raises, so no later
network request can be issued from an invalidly configured client. -/
def YouChat.init (config : YouChatConfig) : Except YouChatError YouChat :=
  match validate_configuration config with
  | Except.ok _ => Except.ok (YouChat.mk config)
  | Except.error e => Except.error e

/-- JSON values as produced by `json.loads`.  Objects keep their fields in
parse order (later duplicate keys shadow earlier ones via `jGet`, matching
Python dict construction); numbers are restricted to integers, which
covers every frame shape the decoder's claims are about. -/
inductive JVal where
  | null
  | bool (b : Bool)
  | num (n : Int)
  | str (s : String)
  | arr (items : List JVal)
  | obj (fields : List (String × JVal))

/-- Python truthiness of a decoded JSON value (`if value:`). -/
def jTruthy : JVal → Bool
  | JVal.null => false
  | JVal.bool b => b
  | JVal.num n => !(n == 0)
  | JVal.str s => !(s == "")
  | JVal.arr items => !items.isEmpty
  | JVal.obj fields => !fields.isEmpty

/-- Python `dict.get(key)` on a decoded object: the last binding of the
key wins, as in a dict built by `json.loads`. -/
def jGet (fields : List (String × JVal)) (key : String) : Option JVal :=
  fields.reverse.lookup key

/-- The opening-brace character. -/
def lbrace : Char := Char.ofNat 123

/-- The closing-brace character. -/
def rbrace : Char := Char.ofNat 125

/-- The backslash character. -/
def bslash : Char := '\\'

/-- Skip JSON whitespace. -/
def skipWs : List Char → List Char
  | [] => []
  | c :: cs =>
    if c = ' ' ∨ c = '\t' ∨ c = '\n' ∨ c = '\r' then skipWs cs else c :: cs

/-- Value of one hexadecimal digit, if any. -/
def hexDigitVal (c : Char) : Option Nat :=
  if c.isDigit then some (c.toNat - 48)
  else if 'a' ≤ c ∧ c ≤ 'f' then some (c.toNat - 87)
  else if 'A' ≤ c ∧ c ≤ 'F' then some (c.toNat - 55)
  else none

/-- Body of a JSON string literal, after the opening quote: returns the
decoded string and the remaining input.  Escapes follow the JSON grammar
accepted by `json.loads`; raw control characters are rejected. -/
def parseStringBody : Nat → List Char → List Char → Option (String × List Char)
  | 0, _, _ => none
  | Nat.succ f, acc, s =>
    match s with
    | [] => none
    | c :: cs =>
      if c = dquote then some (String.mk acc.reverse, cs)
      else if c = bslash then
        match cs with
        | [] => none
        | e :: cs2 =>
          if e = dquote then parseStringBody f (dquote :: acc) cs2
          else if e = bslash then parseStringBody f (bslash :: acc) cs2
          else if e = '/' then parseStringBody f ('/' :: acc) cs2
          else if e = 'b' then parseStringBody f (Char.ofNat 8 :: acc) cs2
          else if e = 'f' then parseStringBody f (Char.ofNat 12 :: acc) cs2
          else if e = 'n' then parseStringBody f ('\n' :: acc) cs2
          else if e = 'r' then parseStringBody f ('\r' :: acc) cs2
          else if e = 't' then parseStringBody f ('\t' :: acc) cs2
          else if e = 'u' then
            match cs2 with
            | h1 :: h2 :: h3 :: h4 :: cs3 =>
              match hexDigitVal h1, hexDigitVal h2, hexDigitVal h3, hexDigitVal h4 with
              | some a, some b, some c4, some d =>
                parseStringBody f (Char.ofNat (((a * 16 + b) * 16 + c4) * 16 + d) :: acc) cs3
              | _, _, _, _ => none
            | _ => none
          else none
      else if c.toNat < 32 then none
      else parseStringBody f (c :: acc) cs

/-- Numeric value of a digit list. -/
def digitsVal (l : List Char) : Nat :=
  l.foldl (fun n c => 10 * n + (c.toNat - 48)) 0

/-- A JSON number restricted to the integer grammar; a fraction or an
exponent makes the whole parse fail (so the line is skipped, as a
`JSONDecodeError` would be). -/
def parseNum (s : List Char) : Option (JVal × List Char) :=
  let negAndRest : Bool × List Char :=
    match s with
    | c :: rest => if c = '-' then (true, rest) else (false, s)
    | [] => (false, s)
  let ds := negAndRest.2.takeWhile Char.isDigit
  let rest := negAndRest.2.dropWhile Char.isDigit
  if ds.isEmpty then none
  else
    let bad : Bool :=
      match rest with
      | c :: _ => c = '.' ∨ c = 'e' ∨ c = 'E'
      | [] => false
    if bad then none
    else
      let n : Int := Int.ofNat (digitsVal ds)
      some (JVal.num (if negAndRest.1 then -n else n), rest)

/-- Drop an expected literal suffix such as `rue` of `true`. -/
def dropLit (lit s : List Char) : Option (List Char) :=
  if lit.isPrefixOf s then some (s.drop lit.length) else none

mutual

/-- One JSON value (fuel-based recursive-descent, modelling `json.loads`);
returns the value and the unconsumed remainder. -/
def parseVal : Nat → List Char → Option (JVal × List Char)
  | 0, _ => none
  | Nat.succ f, s =>
    match skipWs s with
    | [] => none
    | c :: cs =>
      if c = lbrace then
        match skipWs cs with
        | [] => none
        | c2 :: cs2 =>
          if c2 = rbrace then some (JVal.obj [], cs2)
          else parseMembers f (c2 :: cs2) []
      else if c = '[' then
        match skipWs cs with
        | [] => none
        | c2 :: cs2 =>
          if c2 = ']' then some (JVal.arr [], cs2)
          else parseElems f (c2 :: cs2) []
      else if c = dquote then
        match parseStringBody (cs.length + 1) [] cs with
        | some (str, rest) => some (JVal.str str, rest)
        | none => none
      else if c = 't' then (dropLit "rue".toList cs).map fun r => (JVal.bool true, r)
      else if c = 'f' then (dropLit "alse".toList cs).map fun r => (JVal.bool false, r)
      else if c = 'n' then (dropLit "ull".toList cs).map fun r => (JVal.null, r)
      else parseNum (c :: cs)

/-- Members of a JSON object, after the opening brace of a non-empty
object. -/
def parseMembers : Nat → List Char → List (String × JVal) → Option (JVal × List Char)
  | 0, _, _ => none
  | Nat.succ f, s, acc =>
    match skipWs s with
    | [] => none
    | c :: cs =>
      if c = dquote then
        match parseStringBody (cs.length + 1) [] cs with
        | some (key, s2) =>
          match skipWs s2 with
          | [] => none
          | c2 :: cs2 =>
            if c2 = ':' then
              match parseVal f cs2 with
              | some (v, s3) =>
                match skipWs s3 with
                | [] => none
                | c3 :: cs3 =>
                  if c3 = ',' then parseMembers f cs3 (acc ++ [(key, v)])
                  else if c3 = rbrace then some (JVal.obj (acc ++ [(key, v)]), cs3)
                  else none
              | none => none
            else none
        | none => none
      else none

/-- Elements of a JSON array, after the opening bracket of a non-empty
array. -/
def parseElems : Nat → List Char → List JVal → Option (JVal × List Char)
  | 0, _, _ => none
  | Nat.succ f, s, acc =>
    match parseVal f s with
    | some (v, s2) =>
      match skipWs s2 with
      | [] => none
      | c :: cs =>
        if c = ',' then parseElems f cs (acc ++ [v])
        else if c = ']' then some (JVal.arr (acc ++ [v]), cs)
        else none
    | none => none

end

/-- Model of `json.loads`: parse a complete JSON document, allowing only trailing
whitespace after the value. -/
def parseJson (s : String) : Option JVal :=
  match parseVal (2 * s.toList.length + 8) s.toList with
  | some (v, rest) => if (skipWs rest).isEmpty then some v else none
  | none => none

/-- Python substring containment (`sub in s`). -/
def containsSub (pat : List Char) : List Char → Bool
  | [] => pat.isEmpty
  | c :: cs => pat.isPrefixOf (c :: cs) || containsSub pat cs

/-- The per-line preprocessing of line 144:
`value = value.replace('data: ', '')` — note this removes every
occurrence of `'data: '`, not only a leading prefix. -/
def stripData (line : String) : String :=
  pyReplace line "data: " ""

/-- The `response_dict` accumulator of `handle_response` (line 140): the
`streaming_response` key is present from the start; the `query` and
`relatedSearches` keys appear only when written (`none` = key absent). -/
structure ResponseDict where
  streaming_response : String
  query : Option JVal
  relatedSearches : Option JVal

/-- The empty accumulator `{'streaming_response': ''}`. -/
def initialResponseDict : ResponseDict :=
  { streaming_response := "", query := none, relatedSearches := none }

/-- Lines 153-155 / 169-171: `related_searches = item.get('relatedSearches')`;
if truthy, replace the accumulator's `relatedSearches` entry. -/
def updateRelated (fields : List (String × JVal)) (d : ResponseDict) : ResponseDict :=
  match jGet fields "relatedSearches" with
  | some v => if jTruthy v then { d with relatedSearches := some v } else d
  | none => d

/-- Lines 157-159 / 173-175: `query = item.get('query')`; if truthy,
replace the accumulator's `query` entry with the entire enclosing
object. -/
def updateQuery (fields : List (String × JVal)) (d : ResponseDict) : ResponseDict :=
  match jGet fields "query" with
  | some v => if jTruthy v then { d with query := some (JVal.obj fields) } else d
  | none => d

/-- Lines 161-166 / 177-182: `you_chat_token = item.get('youChatToken')`;
if truthy, append it to `streaming_response` and, when `prints` is set,
echo it to the console (modelled by `out`).  Appending a truthy
non-string token is Python `str += non-str`, a `TypeError` that
propagates: modelled as `none`. -/
def appendToken (prints : Bool) (fields : List (String × JVal)) (d : ResponseDict)
    (out : String) : Option (ResponseDict × String) :=
  match jGet fields "youChatToken" with
  | some v =>
    if jTruthy v then
      match v with
      | JVal.str s =>
        some ({ d with streaming_response := d.streaming_response ++ s },
          if prints then out ++ s else out)
      | _ => none
    else some (d, out)
  | none => some (d, out)

/-- Processing of one decoded value (lines 152-166 for array members,
lines 167-182 for a top-level dict): check `relatedSearches`, `query`,
`youChatToken` in that order.  A non-dict value is skipped (the
`isinstance(item, dict)` guard / the missing `else`). -/
def processItem (prints : Bool) (d : ResponseDict) (out : String) :
    JVal → Option (ResponseDict × String)
  | JVal.obj fields => appendToken prints fields (updateQuery fields (updateRelated fields d)) out
  | _ => some (d, out)

/-- The `for item in json_value` loop of lines 151-166. -/
def processItems (prints : Bool) : List JVal → ResponseDict → String →
    Option (ResponseDict × String)
  | [], d, out => some (d, out)
  | item :: rest, d, out =>
    match processItem prints d out item with
    | some (d2, out2) => processItems prints rest d2 out2
    | none => none

/-- Processing of one line of the response stream (lines 142-184): skip
empty lines and lines containing `event:`; remove `'data: '`; parse as
JSON, silently skipping the line on a decode error; dispatch on a list
or a single value. -/
def processLine (prints : Bool) (d : ResponseDict) (out : String) (line : String) :
    Option (ResponseDict × String) :=
  if line == "" || containsSub "event:".toList line.toList then some (d, out)
  else
    match parseJson (stripData line) with
    | none => some (d, out)
    | some (JVal.arr items) => processItems prints items d out
    | some v => processItem prints d out v

/-- The `for value in response.iter_lines(...)` loop. -/
def handle_response_aux (prints : Bool) : List String → ResponseDict → String →
    Option (ResponseDict × String)
  | [], d, out => some (d, out)
  | line :: rest, d, out =>
    match processLine prints d out line with
    | some (d2, out2) => handle_response_aux prints rest d2 out2
    | none => none

/-- Embedding of `YouChat.handle_response` (lines 138-185) on the sequence of response
lines: returns the final accumulator and the console output, or `none`
when an uncaught `TypeError` (truthy non-string `youChatToken`)
propagates. -/
def handle_response (prints : Bool) (lines : List String) :
    Option (ResponseDict × String) :=
  handle_response_aux prints lines initialResponseDict ""

/-- Truthy `youChatToken` string fragments contributed by one decoded
value, in order. -/
def itemTokens : JVal → List String
  | JVal.obj fields =>
    match jGet fields "youChatToken" with
    | some (JVal.str s) => if jTruthy (JVal.str s) then [s] else []
    | _ => []
  | _ => []

/-- Truthy `relatedSearches` values contributed by one decoded value. -/
def itemRelated : JVal → List JVal
  | JVal.obj fields =>
    match jGet fields "relatedSearches" with
    | some v => if jTruthy v then [v] else []
    | none => []
  | _ => []

/-- Enclosing objects whose `query` field is truthy, contributed by one
decoded value. -/
def itemQuery : JVal → List JVal
  | JVal.obj fields =>
    match jGet fields "query" with
    | some v => if jTruthy v then [JVal.obj fields] else []
    | none => []
  | _ => []

/-- The decoded values a line contributes to the accumulator: none when
the line is skipped or fails to parse, the members for a JSON array, a
singleton otherwise. -/
def lineItems (line : String) : List JVal :=
  if line == "" || containsSub "event:".toList line.toList then []
  else
    match parseJson (stripData line) with
    | none => []
    | some (JVal.arr items) => items
    | some v => [v]

/-- Concatenate token lists contributed by a list of decoded values. -/
def itemsTokens : List JVal → List String
  | [] => []
  | item :: rest => itemTokens item ++ itemsTokens rest

/-- Concatenate `relatedSearches` values of a list of decoded values. -/
def itemsRelated : List JVal → List JVal
  | [] => []
  | item :: rest => itemRelated item ++ itemsRelated rest

/-- Concatenate query-bearing objects of a list of decoded values. -/
def itemsQuery : List JVal → List JVal
  | [] => []
  | item :: rest => itemQuery item ++ itemsQuery rest

/-- All truthy `youChatToken` fragments of a stream, in arrival order. -/
def linesTokens : List String → List String
  | [] => []
  | line :: rest => itemsTokens (lineItems line) ++ linesTokens rest

/-- All truthy `relatedSearches` values of a stream, in arrival order. -/
def linesRelated : List String → List JVal
  | [] => []
  | line :: rest => itemsRelated (lineItems line) ++ linesRelated rest

/-- All truthy query-bearing objects of a stream, in arrival order. -/
def linesQuery : List String → List JVal
  | [] => []
  | line :: rest => itemsQuery (lineItems line) ++ linesQuery rest

/-- Concatenation of a list of strings, in order. -/
def strConcat : List String → String
  | [] => ""
  | s :: rest => s ++ strConcat rest

/-- Left-biased choice on options: `optOr a b` is `a` unless it is
`none`. -/
def optOr : Option α → Option α → Option α
  | some a, _ => some a
  | none, b => b

/-- The last element of a list, as an option. -/
def lastOpt : List α → Option α
  | [] => none
  | a :: rest => optOr (lastOpt rest) (some a)

/-- Whether a decoded object carries a truthy occurrence of one of the
three recognized fields. -/
def objHasTruthyField (fields : List (String × JVal)) : Bool :=
  (match jGet fields "relatedSearches" with
    | some v => jTruthy v
    | none => false) ||
  (match jGet fields "query" with
    | some v => jTruthy v
    | none => false) ||
  (match jGet fields "youChatToken" with
    | some v => jTruthy v
    | none => false)

/-- A decoded value that cannot change the accumulator: a non-object, or
an object with no truthy recognized field. -/
def itemInert : JVal → Bool
  | JVal.obj fields => !objHasTruthyField fields
  | _ => true

lemma listReplaceAux_nil (pat rep : List Char) (f : Nat) :
    listReplaceAux pat rep f [] = [] := by
  cases f <;> rfl

lemma listReplaceAux_single (c : Char) (rep : List Char) :
    ∀ f s, s.length ≤ f → listReplaceAux [c] rep f s = subst1 c rep s := by
  intro f
  induction f with
  | zero =>
    intro s hs
    have : s = [] := List.length_eq_zero.mp (Nat.le_zero.mp hs)
    subst this; rfl
  | succ f ih =>
    intro s hs
    cases s with
    | nil => rfl
    | cons x xs =>
      have hx : [c].isPrefixOf (x :: xs) = (c == x) := by
        simp [List.isPrefixOf]
      have hlen : xs.length ≤ f := by
        simpa [Nat.succ_le_succ_iff] using hs
      by_cases hcx : c = x
      · subst hcx
        simp [listReplaceAux, hx, subst1, ih _ hlen]
      · have hbeq : (c == x) = false := by simpa using hcx
        have hxc : ¬x = c := fun h => hcx h.symm
        simp [listReplaceAux, hx, hbeq, subst1, ih _ hlen, hxc]

lemma listReplace_single (c : Char) (rep s : List Char) :
    listReplace [c] rep s = subst1 c rep s :=
  listReplaceAux_single c rep s.length s (Nat.le_refl _)

lemma string_toList_mk (l : List Char) : (String.mk l).toList = l := rfl

lemma string_mk_toList (s : String) : String.mk s.toList = s := by
  cases s; rfl

lemma pyReplace_single_toList (q : String) (c : Char) (r : String) :
    (pyReplace q (String.mk [c]) r).toList = subst1 c r.toList q.toList := by
  simp [pyReplace, string_toList_mk, listReplace_single]

lemma foldl_pyReplace_toList :
    ∀ (rs : List (Char × String)) (q : String),
      (rs.foldl (fun q p => pyReplace q (String.mk [p.1]) p.2) q).toList =
        applyAll rs q.toList := by
  intro rs
  induction rs with
  | nil => intro q; rfl
  | cons p rest ih =>
    intro q
    rw [List.foldl_cons, ih, pyReplace_single_toList]
    rfl

lemma subst1_append (c : Char) (rep a b : List Char) :
    subst1 c rep (a ++ b) = subst1 c rep a ++ subst1 c rep b := by
  induction a with
  | nil => rfl
  | cons x xs ih => simp [subst1, ih]

lemma applyAll_append (rs : List (Char × String)) :
    ∀ a b, applyAll rs (a ++ b) = applyAll rs a ++ applyAll rs b := by
  induction rs with
  | nil => intro a b; rfl
  | cons p rest ih => intro a b; simp [applyAll, subst1_append, ih]

lemma applyAll_nil (rs : List (Char × String)) : applyAll rs [] = [] := by
  induction rs with
  | nil => rfl
  | cons p rest ih => simpa [applyAll, subst1] using ih

lemma applyAll_notin (c : Char) :
    ∀ rs : List (Char × String), (∀ p ∈ rs, c ≠ p.1) → applyAll rs [c] = [c] := by
  intro rs
  induction rs with
  | nil => intro _; rfl
  | cons p rest ih =>
    intro h
    have hc : c ≠ p.1 := h p (List.mem_cons_self _ _)
    have : subst1 p.1 p.2.toList [c] = [c] := by
      simp [subst1, hc]
    rw [applyAll, this]
    exact ih fun q hq => h q (List.mem_cons_of_mem _ hq)

lemma applyAll_single (c : Char) : applyAll replacements [c] = specSubst c := by
  by_cases h1 : c = ' '
  · subst h1; decide
  by_cases h2 : c = '?'
  · subst h2; decide
  by_cases h3 : c = '&'
  · subst h3; decide
  by_cases h4 : c = dquote
  · subst h4; decide
  by_cases h5 : c = squote
  · subst h5; decide
  by_cases h6 : c = ','
  · subst h6; decide
  by_cases h7 : c = ';'
  · subst h7; decide
  by_cases h8 : c = ':'
  · subst h8; decide
  by_cases h9 : c = '/'
  · subst h9; decide
  by_cases h10 : c = '\\'
  · subst h10; decide
  by_cases h11 : c = '|'
  · subst h11; decide
  by_cases h12 : c = '='
  · subst h12; decide
  by_cases h13 : c = '+'
  · subst h13; decide
  have hspec : specSubst c = [c] := by
    simp [specSubst, h1, h2, h3, h4, h5, h6, h7, h8, h9, h10, h11, h12, h13]
  have hnot : ∀ p ∈ replacements, c ≠ p.1 := by
    intro p hp
    simp only [replacements, List.mem_cons, List.not_mem_nil, or_false] at hp
    rcases hp with h | h | h | h | h | h | h | h | h | h | h | h | h <;>
      (subst h; simp_all)
  rw [applyAll_notin c replacements hnot, hspec]

lemma applyAll_encode : ∀ l, applyAll replacements l = encodeList l := by
  intro l
  induction l with
  | nil => exact applyAll_nil _
  | cons c cs ih =>
    have hcons : (c :: cs) = [c] ++ cs := rfl
    rw [hcons, applyAll_append, applyAll_single, ih]
    rfl

lemma prepare_query_toList (q : String) :
    (prepare_query q).toList = encodeList q.toList := by
  rw [prepare_query, foldl_pyReplace_toList, applyAll_encode]

lemma prepare_query_eq (q : String) :
    prepare_query q = String.mk (encodeList q.toList) := by
  rw [← prepare_query_toList, string_mk_toList]

lemma specialChars_mem (c : Char) :
    c ∈ specialChars ↔
      (c = ' ' ∨ c = '?' ∨ c = '&' ∨ c = dquote ∨ c = squote ∨ c = ',' ∨
       c = ';' ∨ c = ':' ∨ c = '/' ∨ c = '\\' ∨ c = '|' ∨ c = '=' ∨ c = '+') := by
  simp [specialChars, replacements]

lemma specSubst_id (c : Char) (h : c ∉ specialChars) : specSubst c = [c] := by
  rw [specialChars_mem] at h
  push_neg at h
  obtain ⟨h1, h2, h3, h4, h5, h6, h7, h8, h9, h10, h11, h12, h13⟩ := h
  simp [specSubst, h1, h2, h3, h4, h5, h6, h7, h8, h9, h10, h11, h12, h13]

lemma specSubst_no_special (c : Char) : ∀ x ∈ specSubst c, x ∉ specialChars := by
  by_cases h1 : c = ' '
  · subst h1; decide
  by_cases h2 : c = '?'
  · subst h2; decide
  by_cases h3 : c = '&'
  · subst h3; decide
  by_cases h4 : c = dquote
  · subst h4; decide
  by_cases h5 : c = squote
  · subst h5; decide
  by_cases h6 : c = ','
  · subst h6; decide
  by_cases h7 : c = ';'
  · subst h7; decide
  by_cases h8 : c = ':'
  · subst h8; decide
  by_cases h9 : c = '/'
  · subst h9; decide
  by_cases h10 : c = '\\'
  · subst h10; decide
  by_cases h11 : c = '|'
  · subst h11; decide
  by_cases h12 : c = '='
  · subst h12; decide
  by_cases h13 : c = '+'
  · subst h13; decide
  have hc : c ∉ specialChars := by
    rw [specialChars_mem]
    simp [h1, h2, h3, h4, h5, h6, h7, h8, h9, h10, h11, h12, h13]
  rw [specSubst_id c hc]
  intro x hx
  rw [List.mem_singleton] at hx
  subst hx
  exact hc

lemma encodeList_append (a b : List Char) :
    encodeList (a ++ b) = encodeList a ++ encodeList b := by
  induction a with
  | nil => rfl
  | cons c cs ih => simp [encodeList, ih]

lemma encodeList_id (l : List Char) (h : ∀ c ∈ l, c ∉ specialChars) :
    encodeList l = l := by
  induction l with
  | nil => rfl
  | cons c cs ih =>
    rw [encodeList, specSubst_id c (h c (List.mem_cons_self _ _)),
      ih fun x hx => h x (List.mem_cons_of_mem _ hx)]
    rfl

lemma encodeList_idem (l : List Char) : encodeList (encodeList l) = encodeList l := by
  induction l with
  | nil => rfl
  | cons c cs ih =>
    rw [encodeList, encodeList_append, ih,
      encodeList_id (specSubst c) (specSubst_no_special c)]

lemma prepare_query_idem_all (q : String) :
    prepare_query (prepare_query q) = prepare_query q := by
  rw [prepare_query_eq q, prepare_query_eq, string_toList_mk, encodeList_idem,
    ← prepare_query_eq]

/-- C5: `prepare_query` replaces every occurrence of exactly the 13
characters space, `?`, `&`, `"`, `'`, comma, `;`, `:`, `/`, backslash,
`|`, `=`, `+` with `%20`, `%3F`, `%26`, `%22`, `%27`, `%2C`, `%3B`, `%3A`,
`%2F`, `%5C`, `%7C`, `%3D`, `%2B` respectively and leaves every other
character unchanged (the sequential `str.replace` loop equals the single
character-wise substitution `specSubst`); in particular the query
"What is current AQI in New Delhi?" renders each space as `%20` and the
`?` as `%3F`. -/
theorem prepare_query_charwise :
    (∀ q : String, prepare_query q = String.mk (encodeList q.toList)) ∧
      prepare_query "What is current AQI in New Delhi?" =
        "What%20is%20current%20AQI%20in%20New%20Delhi%3F" := by
  constructor
  · exact prepare_query_eq
  · decide

/-- C6: `prepare_query` is the identity on every string containing none of
the 13 special characters, and on strings drawn from alphanumerics plus
the 13 special characters a second pass never double-escapes the escape
sequences introduced by the first pass. -/
theorem prepare_query_idempotent :
    (∀ q : String, (∀ c ∈ q.toList, c ∉ specialChars) → prepare_query q = q) ∧
      (∀ q : String, (∀ c ∈ q.toList, c.isAlphanum = true ∨ c ∈ specialChars) →
        prepare_query (prepare_query q) = prepare_query q) := by
  constructor
  · intro q h
    rw [prepare_query_eq, encodeList_id q.toList h, string_mk_toList]
  · intro q _
    exact prepare_query_idem_all q

/-- Witness for C6 at concrete inputs: "hello" has no special character
and is fixed by `prepare_query`; "a b?" is alphanumerics plus specials and
is not double-escaped. -/
theorem prepare_query_idempotent_witness :
    ((∀ c ∈ "hello".toList, c ∉ specialChars) ∧ prepare_query "hello" = "hello") ∧
      ((∀ c ∈ "a b?".toList, c.isAlphanum = true ∨ c ∈ specialChars) ∧
        prepare_query (prepare_query "a b?") = prepare_query "a b?") :=
  ⟨⟨by decide, prepare_query_idempotent.1 "hello" (by decide)⟩,
    ⟨by decide, prepare_query_idempotent.2 "a b?" (by decide)⟩⟩

/-- C7: validation raises `ModelNotAvailableError` exactly when the model
is not a member of the closed model enumeration, raises
`ChatModeNotAvailableError` exactly when the model is a member but the
chat mode is not, and succeeds for every pair of members; no other field
is validated (any query string, including the empty one, and any prints
flag yield the same verdict), and `YouChat.__init__` is exactly this
validation, so a validation error precludes constructing the client that
could issue a network request. -/
theorem validate_configuration_spec (config : YouChatConfig) :
    (validate_configuration config = Except.error YouChatError.ModelNotAvailableError ↔
      config.model.isMember = false) ∧
    (validate_configuration config = Except.error YouChatError.ChatModeNotAvailableError ↔
      (config.model.isMember = true ∧ config.chat_mode.isMember = false)) ∧
    (validate_configuration config = Except.ok () ↔
      (config.model.isMember = true ∧ config.chat_mode.isMember = true)) ∧
    (∀ (q : String) (p : Bool),
      validate_configuration { config with query := q, prints := p } =
        validate_configuration config) ∧
    (YouChat.init config = (validate_configuration config).map fun _ => YouChat.mk config) := by
  obtain ⟨m, cm, q0, p0⟩ := config
  cases m <;> cases cm <;>
    simp [validate_configuration, YouChat.init, PyValue.isMember, Except.map]

lemma str_append_empty (s : String) : s ++ "" = s := by
  cases s with
  | mk l => exact congrArg String.mk (List.append_nil l)

lemma str_empty_append (s : String) : "" ++ s = s := by
  cases s with
  | mk l => rfl

lemma str_append_assoc (a b c : String) : a ++ b ++ c = a ++ (b ++ c) := by
  cases a with
  | mk la =>
    cases b with
    | mk lb =>
      cases c with
      | mk lc => exact congrArg String.mk (List.append_assoc la lb lc)

lemma optOr_none_right (a : Option α) : optOr a none = a := by
  cases a <;> rfl

lemma optOr_assoc (a b c : Option α) : optOr (optOr a b) c = optOr a (optOr b c) := by
  cases a <;> rfl

lemma lastOpt_append (a b : List α) :
    lastOpt (a ++ b) = optOr (lastOpt b) (lastOpt a) := by
  induction a with
  | nil => simp [lastOpt, optOr_none_right]
  | cons x xs ih => simp [lastOpt, ih, optOr_assoc]

lemma lastOpt_eq_none (l : List α) : lastOpt l = none ↔ l = [] := by
  cases l with
  | nil => simp [lastOpt]
  | cons x xs =>
    simp only [lastOpt]
    cases lastOpt xs <;> simp [optOr]

lemma strConcat_append (a b : List String) :
    strConcat (a ++ b) = strConcat a ++ strConcat b := by
  induction a with
  | nil => simp [strConcat, str_empty_append]
  | cons s rest ih => simp [strConcat, ih, str_append_assoc]

lemma updateRelated_spec (fields : List (String × JVal)) (d : ResponseDict) :
    (updateRelated fields d).streaming_response = d.streaming_response ∧
    (updateRelated fields d).query = d.query ∧
    (updateRelated fields d).relatedSearches =
      optOr (lastOpt (itemRelated (JVal.obj fields))) d.relatedSearches := by
  cases hg : jGet fields "relatedSearches" with
  | none => simp [updateRelated, itemRelated, hg, lastOpt, optOr]
  | some v =>
    by_cases ht : jTruthy v = true <;>
      simp [updateRelated, itemRelated, hg, ht, lastOpt, optOr]

lemma updateQuery_spec (fields : List (String × JVal)) (d : ResponseDict) :
    (updateQuery fields d).streaming_response = d.streaming_response ∧
    (updateQuery fields d).relatedSearches = d.relatedSearches ∧
    (updateQuery fields d).query =
      optOr (lastOpt (itemQuery (JVal.obj fields))) d.query := by
  cases hg : jGet fields "query" with
  | none => simp [updateQuery, itemQuery, hg, lastOpt, optOr]
  | some v =>
    by_cases ht : jTruthy v = true <;>
      simp [updateQuery, itemQuery, hg, ht, lastOpt, optOr]

lemma appendToken_spec (prints : Bool) (fields : List (String × JVal))
    (d : ResponseDict) (out : String) (r : ResponseDict × String)
    (h : appendToken prints fields d out = some r) :
    r.1.streaming_response = d.streaming_response ++ strConcat (itemTokens (JVal.obj fields)) ∧
    r.1.query = d.query ∧
    r.1.relatedSearches = d.relatedSearches := by
  cases htok : jGet fields "youChatToken" with
  | none =>
    simp only [appendToken, htok, Option.some.injEq] at h
    subst h
    simp [itemTokens, htok, strConcat, str_append_empty]
  | some v =>
    by_cases ht : jTruthy v = true
    · cases v with
      | str s =>
        simp only [appendToken, htok, ht, if_true, Option.some.injEq] at h
        subst h
        simp [itemTokens, htok, ht, strConcat, str_append_empty]
      | null => simp [appendToken, htok, ht] at h
      | bool b => simp [appendToken, htok, ht] at h
      | num n => simp [appendToken, htok, ht] at h
      | arr items => simp [appendToken, htok, ht] at h
      | obj fs => simp [appendToken, htok, ht] at h
    · simp only [appendToken, htok] at h
      rw [if_neg ht] at h
      simp only [Option.some.injEq] at h
      subst h
      cases v <;> simp [itemTokens, htok, ht, strConcat, str_append_empty]

lemma processItem_spec (prints : Bool) (d : ResponseDict) (out : String)
    (item : JVal) (r : ResponseDict × String)
    (h : processItem prints d out item = some r) :
    r.1.streaming_response = d.streaming_response ++ strConcat (itemTokens item) ∧
    r.1.relatedSearches = optOr (lastOpt (itemRelated item)) d.relatedSearches ∧
    r.1.query = optOr (lastOpt (itemQuery item)) d.query := by
  cases item with
  | obj fields =>
    simp only [processItem] at h
    obtain ⟨hs, hq, hr⟩ :=
      appendToken_spec prints fields (updateQuery fields (updateRelated fields d)) out r h
    obtain ⟨us, ur, uq⟩ := updateQuery_spec fields (updateRelated fields d)
    obtain ⟨vs, vq, vr⟩ := updateRelated_spec fields d
    refine ⟨?_, ?_, ?_⟩
    · rw [hs, us, vs]
    · rw [hr, ur, vr]
    · rw [hq, uq, vq]
  | null =>
    simp only [processItem, Option.some.injEq] at h
    subst h
    simp [itemTokens, itemRelated, itemQuery, strConcat, lastOpt, optOr, str_append_empty]
  | bool b =>
    simp only [processItem, Option.some.injEq] at h
    subst h
    simp [itemTokens, itemRelated, itemQuery, strConcat, lastOpt, optOr, str_append_empty]
  | num n =>
    simp only [processItem, Option.some.injEq] at h
    subst h
    simp [itemTokens, itemRelated, itemQuery, strConcat, lastOpt, optOr, str_append_empty]
  | str s =>
    simp only [processItem, Option.some.injEq] at h
    subst h
    simp [itemTokens, itemRelated, itemQuery, strConcat, lastOpt, optOr, str_append_empty]
  | arr items =>
    simp only [processItem, Option.some.injEq] at h
    subst h
    simp [itemTokens, itemRelated, itemQuery, strConcat, lastOpt, optOr, str_append_empty]

lemma processItems_spec (prints : Bool) :
    ∀ (items : List JVal) (d : ResponseDict) (out : String) (r : ResponseDict × String),
      processItems prints items d out = some r →
      r.1.streaming_response = d.streaming_response ++ strConcat (itemsTokens items) ∧
      r.1.relatedSearches = optOr (lastOpt (itemsRelated items)) d.relatedSearches ∧
      r.1.query = optOr (lastOpt (itemsQuery items)) d.query := by
  intro items
  induction items with
  | nil =>
    intro d out r h
    simp only [processItems, Option.some.injEq] at h
    subst h
    simp [itemsTokens, itemsRelated, itemsQuery, strConcat, lastOpt, optOr, str_append_empty]
  | cons item rest ih =>
    intro d out r h
    simp only [processItems] at h
    cases hpi : processItem prints d out item with
    | none => rw [hpi] at h; exact absurd h (by simp)
    | some mid =>
      rw [hpi] at h
      obtain ⟨d2, out2⟩ := mid
      obtain ⟨ihs, ihr, ihq⟩ := ih d2 out2 r h
      obtain ⟨ps, pr, pq⟩ := processItem_spec prints d out item (d2, out2) hpi
      refine ⟨?_, ?_, ?_⟩
      · rw [ihs, ps, itemsTokens, strConcat_append, str_append_assoc]
      · rw [ihr, pr, itemsRelated, lastOpt_append, optOr_assoc]
      · rw [ihq, pq, itemsQuery, lastOpt_append, optOr_assoc]

lemma processLine_spec (prints : Bool) (d : ResponseDict) (out : String)
    (line : String) (r : ResponseDict × String)
    (h : processLine prints d out line = some r) :
    r.1.streaming_response = d.streaming_response ++ strConcat (itemsTokens (lineItems line)) ∧
    r.1.relatedSearches = optOr (lastOpt (itemsRelated (lineItems line))) d.relatedSearches ∧
    r.1.query = optOr (lastOpt (itemsQuery (lineItems line))) d.query := by
  unfold processLine at h
  unfold lineItems
  by_cases hc : (line == "" || containsSub "event:".toList line.toList) = true
  · rw [if_pos hc] at h
    simp only [Option.some.injEq] at h
    subst h
    rw [if_pos hc]
    simp [itemsTokens, itemsRelated, itemsQuery, strConcat, lastOpt, optOr,
      str_append_empty]
  · rw [if_neg hc] at h
    rw [if_neg hc]
    cases hp : parseJson (stripData line) with
    | none =>
      rw [hp] at h
      simp only [Option.some.injEq] at h
      subst h
      simp [itemsTokens, itemsRelated, itemsQuery, strConcat, lastOpt, optOr,
        str_append_empty]
    | some v =>
      rw [hp] at h
      cases v with
      | arr items => exact processItems_spec prints items d out r h
      | null =>
        have := processItem_spec prints d out JVal.null r h
        simpa [itemsTokens, itemsRelated, itemsQuery, strConcat, lastOpt, optOr,
          str_append_empty, str_append_assoc] using this
      | bool b =>
        have := processItem_spec prints d out (JVal.bool b) r h
        simpa [itemsTokens, itemsRelated, itemsQuery, strConcat, lastOpt, optOr,
          str_append_empty, str_append_assoc] using this
      | num n =>
        have := processItem_spec prints d out (JVal.num n) r h
        simpa [itemsTokens, itemsRelated, itemsQuery, strConcat, lastOpt, optOr,
          str_append_empty, str_append_assoc] using this
      | str s =>
        have := processItem_spec prints d out (JVal.str s) r h
        simpa [itemsTokens, itemsRelated, itemsQuery, strConcat, lastOpt, optOr,
          str_append_empty, str_append_assoc] using this
      | obj fields =>
        have := processItem_spec prints d out (JVal.obj fields) r h
        simpa [itemsTokens, itemsRelated, itemsQuery, strConcat, lastOpt, optOr,
          str_append_empty, str_append_assoc] using this

lemma handle_response_aux_spec (prints : Bool) :
    ∀ (lines : List String) (d : ResponseDict) (out : String) (r : ResponseDict × String),
      handle_response_aux prints lines d out = some r →
      r.1.streaming_response = d.streaming_response ++ strConcat (linesTokens lines) ∧
      r.1.relatedSearches = optOr (lastOpt (linesRelated lines)) d.relatedSearches ∧
      r.1.query = optOr (lastOpt (linesQuery lines)) d.query := by
  intro lines
  induction lines with
  | nil =>
    intro d out r h
    simp only [handle_response_aux, Option.some.injEq] at h
    subst h
    simp [linesTokens, linesRelated, linesQuery, strConcat, lastOpt, optOr, str_append_empty]
  | cons line rest ih =>
    intro d out r h
    simp only [handle_response_aux] at h
    cases hpl : processLine prints d out line with
    | none => rw [hpl] at h; exact absurd h (by simp)
    | some mid =>
      rw [hpl] at h
      obtain ⟨d2, out2⟩ := mid
      obtain ⟨ihs, ihr, ihq⟩ := ih d2 out2 r h
      obtain ⟨ps, pr, pq⟩ := processLine_spec prints d out line (d2, out2) hpl
      refine ⟨?_, ?_, ?_⟩
      · rw [ihs, ps, linesTokens, strConcat_append, str_append_assoc]
      · rw [ihr, pr, linesRelated, lastOpt_append, optOr_assoc]
      · rw [ihq, pq, linesQuery, lastOpt_append, optOr_assoc]

lemma handle_response_spec (prints : Bool) (lines : List String)
    (r : ResponseDict × String) (h : handle_response prints lines = some r) :
    r.1.streaming_response = strConcat (linesTokens lines) ∧
    r.1.relatedSearches = lastOpt (linesRelated lines) ∧
    r.1.query = lastOpt (linesQuery lines) := by
  obtain ⟨hs, hr, hq⟩ := handle_response_aux_spec prints lines initialResponseDict "" r h
  refine ⟨?_, ?_, ?_⟩
  · rw [hs]; exact str_empty_append _
  · rw [hr]; exact optOr_none_right _
  · rw [hq]; exact optOr_none_right _

lemma appendToken_fst (p1 p2 : Bool) (fields : List (String × JVal))
    (d : ResponseDict) (o1 o2 : String) :
    Option.map Prod.fst (appendToken p1 fields d o1) =
      Option.map Prod.fst (appendToken p2 fields d o2) := by
  cases htok : jGet fields "youChatToken" with
  | none => simp [appendToken, htok]
  | some v =>
    by_cases ht : jTruthy v = true
    · cases v <;> simp [appendToken, htok, ht]
    · simp only [appendToken, htok]
      rw [if_neg ht, if_neg ht]
      simp

lemma processItem_fst (p1 p2 : Bool) (d : ResponseDict) (o1 o2 : String)
    (item : JVal) :
    Option.map Prod.fst (processItem p1 d o1 item) =
      Option.map Prod.fst (processItem p2 d o2 item) := by
  cases item with
  | obj fields => exact appendToken_fst p1 p2 fields _ o1 o2
  | null => rfl
  | bool b => rfl
  | num n => rfl
  | str s => rfl
  | arr items => rfl

lemma processItems_fst (p1 p2 : Bool) :
    ∀ (items : List JVal) (d : ResponseDict) (o1 o2 : String),
      Option.map Prod.fst (processItems p1 items d o1) =
        Option.map Prod.fst (processItems p2 items d o2) := by
  intro items
  induction items with
  | nil => intro d o1 o2; rfl
  | cons item rest ih =>
    intro d o1 o2
    have hfst := processItem_fst p1 p2 d o1 o2 item
    simp only [processItems]
    cases h1 : processItem p1 d o1 item with
    | none =>
      cases h2 : processItem p2 d o2 item with
      | none => rfl
      | some m2 => rw [h1, h2] at hfst; simp at hfst
    | some m1 =>
      cases h2 : processItem p2 d o2 item with
      | none => rw [h1, h2] at hfst; simp at hfst
      | some m2 =>
        rw [h1, h2] at hfst
        obtain ⟨d1, o1'⟩ := m1
        obtain ⟨d2, o2'⟩ := m2
        simp at hfst
        subst hfst
        exact ih _ o1' o2'

lemma processLine_fst (p1 p2 : Bool) (d : ResponseDict) (o1 o2 : String)
    (line : String) :
    Option.map Prod.fst (processLine p1 d o1 line) =
      Option.map Prod.fst (processLine p2 d o2 line) := by
  by_cases hc : (line == "" || containsSub "event:".toList line.toList) = true
  · simp only [processLine]
    rw [if_pos hc, if_pos hc]
    rfl
  · simp only [processLine]
    rw [if_neg hc, if_neg hc]
    cases hp : parseJson (stripData line) with
    | none => rfl
    | some v =>
      cases v with
      | arr items => exact processItems_fst p1 p2 items d o1 o2
      | null => rfl
      | bool b => rfl
      | num n => rfl
      | str s => rfl
      | obj fields => exact processItem_fst p1 p2 d o1 o2 (JVal.obj fields)

lemma handle_response_aux_fst (p1 p2 : Bool) :
    ∀ (lines : List String) (d : ResponseDict) (o1 o2 : String),
      Option.map Prod.fst (handle_response_aux p1 lines d o1) =
        Option.map Prod.fst (handle_response_aux p2 lines d o2) := by
  intro lines
  induction lines with
  | nil => intro d o1 o2; rfl
  | cons line rest ih =>
    intro d o1 o2
    have hfst := processLine_fst p1 p2 d o1 o2 line
    simp only [handle_response_aux]
    cases h1 : processLine p1 d o1 line with
    | none =>
      cases h2 : processLine p2 d o2 line with
      | none => rfl
      | some m2 => rw [h1, h2] at hfst; simp at hfst
    | some m1 =>
      cases h2 : processLine p2 d o2 line with
      | none => rw [h1, h2] at hfst; simp at hfst
      | some m2 =>
        rw [h1, h2] at hfst
        obtain ⟨d1, o1'⟩ := m1
        obtain ⟨d2, o2'⟩ := m2
        simp at hfst
        subst hfst
        exact ih _ o1' o2'

lemma updateRelated_inert (fields : List (String × JVal)) (d : ResponseDict)
    (h : (match jGet fields "relatedSearches" with
      | some v => jTruthy v
      | none => false) = false) :
    updateRelated fields d = d := by
  cases hg : jGet fields "relatedSearches" with
  | none => simp [updateRelated, hg]
  | some v =>
    have hv : jTruthy v = false := by rw [hg] at h; exact h
    simp [updateRelated, hg, hv]

lemma updateQuery_inert (fields : List (String × JVal)) (d : ResponseDict)
    (h : (match jGet fields "query" with
      | some v => jTruthy v
      | none => false) = false) :
    updateQuery fields d = d := by
  cases hg : jGet fields "query" with
  | none => simp [updateQuery, hg]
  | some v =>
    have hv : jTruthy v = false := by rw [hg] at h; exact h
    simp [updateQuery, hg, hv]

lemma appendToken_inert (prints : Bool) (fields : List (String × JVal))
    (d : ResponseDict) (out : String)
    (h : (match jGet fields "youChatToken" with
      | some v => jTruthy v
      | none => false) = false) :
    appendToken prints fields d out = some (d, out) := by
  cases hg : jGet fields "youChatToken" with
  | none => simp [appendToken, hg]
  | some v =>
    have hv : jTruthy v = false := by rw [hg] at h; exact h
    simp [appendToken, hg, hv]

lemma processItem_inert (prints : Bool) (d : ResponseDict) (out : String)
    (item : JVal) (h : itemInert item = true) :
    processItem prints d out item = some (d, out) := by
  cases item with
  | obj fields =>
    simp only [itemInert, Bool.not_eq_true', objHasTruthyField,
      Bool.or_eq_false_iff] at h
    obtain ⟨⟨hrel, hq⟩, htok⟩ := h
    simp only [processItem]
    rw [updateRelated_inert fields d hrel, updateQuery_inert fields d hq,
      appendToken_inert prints fields d out htok]
  | null => rfl
  | bool b => rfl
  | num n => rfl
  | str s => rfl
  | arr items => rfl

lemma processItems_inert (prints : Bool) :
    ∀ (items : List JVal) (d : ResponseDict) (out : String),
      items.all itemInert = true →
      processItems prints items d out = some (d, out) := by
  intro items
  induction items with
  | nil => intro d out _; rfl
  | cons item rest ih =>
    intro d out h
    rw [List.all_cons, Bool.and_eq_true] at h
    simp only [processItems]
    rw [processItem_inert prints d out item h.1]
    exact ih d out h.2

lemma listReplaceAux_congr (pat rep : List Char) :
    ∀ f g s, s.length ≤ f → s.length ≤ g →
      listReplaceAux pat rep f s = listReplaceAux pat rep g s := by
  intro f
  induction f with
  | zero =>
    intro g s hf _
    have : s = [] := List.length_eq_zero.mp (Nat.le_zero.mp hf)
    subst this
    rw [listReplaceAux_nil, listReplaceAux_nil]
  | succ f ih =>
    intro g s hf hg
    cases s with
    | nil => rw [listReplaceAux_nil, listReplaceAux_nil]
    | cons x xs =>
      cases g with
      | zero => simp at hg
      | succ g =>
        have hxf : xs.length ≤ f := by
          simpa [Nat.succ_le_succ_iff] using hf
        have hxg : xs.length ≤ g := by
          simpa [Nat.succ_le_succ_iff] using hg
        have hdf : (xs.drop (pat.length - 1)).length ≤ f := by
          rw [List.length_drop]
          omega
        have hdg : (xs.drop (pat.length - 1)).length ≤ g := by
          rw [List.length_drop]
          omega
        simp only [listReplaceAux]
        by_cases hpre : pat.isPrefixOf (x :: xs) = true
        · rw [if_pos hpre, if_pos hpre, ih g _ hdf hdg]
        · rw [if_neg hpre, if_neg hpre, ih g _ hxf hxg]

lemma listReplaceAux_head_match (pat rep : List Char) (f : Nat) (x : Char)
    (xs : List Char) (hpre : pat.isPrefixOf (x :: xs) = true) :
    listReplaceAux pat rep (Nat.succ f) (x :: xs) =
      rep ++ listReplaceAux pat rep f (xs.drop (pat.length - 1)) := by
  rw [listReplaceAux, if_pos hpre]

lemma stripData_strips_leading_tag (l : String) :
    stripData ("data: " ++ l) = stripData l := by
  have hdat : ("data: " ++ l).toList =
      'd' :: 'a' :: 't' :: 'a' :: ':' :: ' ' :: l.toList := by
    cases l with
    | mk m => rfl
  unfold stripData pyReplace listReplace
  rw [hdat]
  have hlen : ('d' :: 'a' :: 't' :: 'a' :: ':' :: ' ' :: l.toList).length =
      Nat.succ (l.toList.length + 5) := by simp
  rw [hlen]
  have hpre : ("data: ".toList).isPrefixOf
      ('d' :: 'a' :: 't' :: 'a' :: ':' :: ' ' :: l.toList) = true := by
    simp [List.isPrefixOf]
  rw [listReplaceAux_head_match "data: ".toList "".toList (l.toList.length + 5)
    'd' ('a' :: 't' :: 'a' :: ':' :: ' ' :: l.toList) hpre]
  have hdrop : (('a' :: 't' :: 'a' :: ':' :: ' ' :: l.toList).drop
      ("data: ".toList.length - 1)) = l.toList := by
    simp
  rw [hdrop]
  rw [listReplaceAux_congr "data: ".toList "".toList (l.toList.length + 5)
    l.toList.length l.toList (by omega) (Nat.le_refl _)]
  rfl

/-- C1: for every stream consumed by `handle_response`, the final
`streaming_response` equals the concatenation, in arrival order, of every
truthy `youChatToken` value found in the decoded JSON objects (a JSON
array contributing its member objects); in particular the two-frame
stream `data: {"youChatToken":"Hel"}`, `data: {"youChatToken":"lo"}`
yields `"Hello"` (the second conjunct spells the frames with `\x7b`/`\x7d`
for the braces). -/
theorem handle_response_streaming_concat :
    (∀ (prints : Bool) (lines : List String) (r : ResponseDict × String),
        handle_response prints lines = some r →
        r.1.streaming_response = strConcat (linesTokens lines)) ∧
      handle_response true
          ["data: \x7b\"youChatToken\":\"Hel\"\x7d",
           "data: \x7b\"youChatToken\":\"lo\"\x7d"] =
        some ({ streaming_response := "Hello", query := none,
                relatedSearches := none }, "Hello") := by
  constructor
  · intro prints lines r h
    exact (handle_response_spec prints lines r h).1
  · rfl

/-- Witness for C1: the universal part applied to the concrete two-frame
stream, whose hypothesis is discharged by evaluation. -/
theorem handle_response_streaming_concat_witness :
    ({ streaming_response := "Hello", query := none,
        relatedSearches := none } : ResponseDict).streaming_response =
      strConcat (linesTokens
        ["data: \x7b\"youChatToken\":\"Hel\"\x7d",
         "data: \x7b\"youChatToken\":\"lo\"\x7d"]) :=
  handle_response_streaming_concat.1 true
    ["data: \x7b\"youChatToken\":\"Hel\"\x7d",
     "data: \x7b\"youChatToken\":\"lo\"\x7d"]
    ({ streaming_response := "Hello", query := none, relatedSearches := none }, "Hello")
    handle_response_streaming_concat.2

/-- C2 counterexample: on the line `data: {"a":"data: b"}` the decoder
hands the JSON parser `{"a":"b"}` — the interior occurrence of
`data: ` inside the JSON string value is removed, not preserved as the
claim states (the line is written with `\x7b`/`\x7d` for the braces). -/
theorem data_prefix_strip_counterexample :
    stripData "data: \x7b\"a\":\"data: b\"\x7d" = "\x7b\"a\":\"b\"\x7d" ∧
      ("\x7b\"a\":\"b\"\x7d" : String) ≠ "\x7b\"a\":\"data: b\"\x7d" := by
  constructor
  · rfl
  · decide

/-- C2 amended: the decoder removes every occurrence of `data: ` found in
one left-to-right scan of the line — in particular a leading `data: `
prefix is stripped, and occurrences inside JSON string values are removed
as well — before handing the text to the JSON parser. -/
theorem data_prefix_strip_amended :
    (∀ l : String, stripData ("data: " ++ l) = stripData l) ∧
      stripData "data: \x7b\"a\":\"data: b\"\x7d" = "\x7b\"a\":\"b\"\x7d" := by
  constructor
  · exact stripData_strips_leading_tag
  · rfl

/-- C3: whenever a decoded object carries a truthy `relatedSearches`
field the accumulator's entry is replaced, so the final value is the last
truthy `relatedSearches` value of the stream; in particular
`data: [{"relatedSearches":["a","b"]}]` followed by
`data: {"relatedSearches":["c"]}` ends with exactly `["c"]`. -/
theorem relatedSearches_last_write_wins :
    (∀ (prints : Bool) (lines : List String) (r : ResponseDict × String),
        handle_response prints lines = some r →
        r.1.relatedSearches = lastOpt (linesRelated lines)) ∧
      handle_response true
          ["data: [\x7b\"relatedSearches\":[\"a\",\"b\"]\x7d]",
           "data: \x7b\"relatedSearches\":[\"c\"]\x7d"] =
        some ({ streaming_response := "", query := none,
                relatedSearches := some (JVal.arr [JVal.str "c"]) }, "") := by
  constructor
  · intro prints lines r h
    exact (handle_response_spec prints lines r h).2.1
  · rfl

/-- Witness for C3: the universal part applied to the concrete two-frame
stream, whose hypothesis is discharged by evaluation. -/
theorem relatedSearches_last_write_wins_witness :
    ({ streaming_response := "", query := none,
        relatedSearches := some (JVal.arr [JVal.str "c"]) } : ResponseDict).relatedSearches =
      lastOpt (linesRelated
        ["data: [\x7b\"relatedSearches\":[\"a\",\"b\"]\x7d]",
         "data: \x7b\"relatedSearches\":[\"c\"]\x7d"]) :=
  relatedSearches_last_write_wins.1 true
    ["data: [\x7b\"relatedSearches\":[\"a\",\"b\"]\x7d]",
     "data: \x7b\"relatedSearches\":[\"c\"]\x7d"]
    ({ streaming_response := "", query := none,
        relatedSearches := some (JVal.arr [JVal.str "c"]) }, "")
    relatedSearches_last_write_wins.2

/-- C4: whenever a decoded object carries a truthy `query` field the
accumulator's `query` entry is replaced with the entire enclosing object,
so the final value is the whole last query-bearing object of the stream
(last-write-wins); the concrete stream stores the complete second object,
extra `chatId` field included, not just the `query` sub-value. -/
theorem query_whole_object_last_write_wins :
    (∀ (prints : Bool) (lines : List String) (r : ResponseDict × String),
        handle_response prints lines = some r →
        r.1.query = lastOpt (linesQuery lines)) ∧
      handle_response true
          ["data: \x7b\"query\":\"first\"\x7d",
           "data: \x7b\"query\":\"second\",\"chatId\":\"z\"\x7d"] =
        some ({ streaming_response := "",
                query := some (JVal.obj
                  [("query", JVal.str "second"), ("chatId", JVal.str "z")]),
                relatedSearches := none }, "") := by
  constructor
  · intro prints lines r h
    exact (handle_response_spec prints lines r h).2.2
  · rfl

/-- Witness for C4: the universal part applied to the concrete two-frame
stream, whose hypothesis is discharged by evaluation. -/
theorem query_whole_object_last_write_wins_witness :
    ({ streaming_response := "",
        query := some (JVal.obj
          [("query", JVal.str "second"), ("chatId", JVal.str "z")]),
        relatedSearches := none } : ResponseDict).query =
      lastOpt (linesQuery
        ["data: \x7b\"query\":\"first\"\x7d",
         "data: \x7b\"query\":\"second\",\"chatId\":\"z\"\x7d"]) :=
  query_whole_object_last_write_wins.1 true
    ["data: \x7b\"query\":\"first\"\x7d",
     "data: \x7b\"query\":\"second\",\"chatId\":\"z\"\x7d"]
    ({ streaming_response := "",
        query := some (JVal.obj
          [("query", JVal.str "second"), ("chatId", JVal.str "z")]),
        relatedSearches := none }, "")
    query_whole_object_last_write_wins.2

/-- C8: a line that is blank, contains `event:`, fails to parse as JSON,
or decodes to values with no truthy occurrence of the three recognized
fields, leaves the accumulator (and console) exactly unchanged and raises
nothing — in particular JSON decode failures never abort the stream. -/
theorem inert_line_preserves_accumulator (prints : Bool) (d : ResponseDict)
    (out : String) (line : String)
    (h : line = "" ∨ containsSub "event:".toList line.toList = true ∨
      parseJson (stripData line) = none ∨
      (lineItems line).all itemInert = true) :
    processLine prints d out line = some (d, out) := by
  by_cases hc : (line == "" || containsSub "event:".toList line.toList) = true
  · simp only [processLine]
    rw [if_pos hc]
  · have hne : ¬(line = "" ∨ containsSub "event:".toList line.toList = true) := by
      intro hor
      apply hc
      rw [Bool.or_eq_true]
      rcases hor with h1 | h2
      · exact Or.inl (by simp [h1])
      · exact Or.inr h2
    rcases h with h1 | h2 | h3 | h4
    · exact absurd (Or.inl h1) hne
    · exact absurd (Or.inr h2) hne
    · simp only [processLine]
      rw [if_neg hc, h3]
    · unfold lineItems at h4
      rw [if_neg hc] at h4
      simp only [processLine]
      rw [if_neg hc]
      cases hp : parseJson (stripData line) with
      | none => rfl
      | some v =>
        rw [hp] at h4
        cases v with
        | arr items => exact processItems_inert prints items d out h4
        | null => rfl
        | bool b => rfl
        | num n => rfl
        | str s => rfl
        | obj fields =>
          rw [List.all_cons, Bool.and_eq_true] at h4
          simp only [processItem] at *
          exact processItem_inert prints d out (JVal.obj fields) h4.1

/-- Witness for C8: the control line `event: ping` leaves the initial
accumulator untouched. -/
theorem inert_line_preserves_accumulator_witness :
    (("event: ping" : String) = "" ∨
        containsSub "event:".toList ("event: ping" : String).toList = true ∨
        parseJson (stripData "event: ping") = none ∨
        (lineItems "event: ping").all itemInert = true) ∧
      processLine true initialResponseDict "" "event: ping" =
        some (initialResponseDict, "") :=
  ⟨Or.inr (Or.inl (by decide)),
    inert_line_preserves_accumulator true initialResponseDict "" "event: ping"
      (Or.inr (Or.inl (by decide)))⟩

/-- C9: the returned mapping always carries the `streaming_response` key
(a string, empty whenever no truthy `youChatToken` was seen), while the
`query` and `relatedSearches` keys are absent (`none`) exactly when no
decoded frame carried a truthy value for the corresponding field. -/
theorem response_keys_presence (prints : Bool) (lines : List String)
    (r : ResponseDict × String) (h : handle_response prints lines = some r) :
    (linesTokens lines = [] → r.1.streaming_response = "") ∧
    (r.1.query = none ↔ linesQuery lines = []) ∧
    (r.1.relatedSearches = none ↔ linesRelated lines = []) := by
  obtain ⟨hs, hr, hq⟩ := handle_response_spec prints lines r h
  refine ⟨?_, ?_, ?_⟩
  · intro he
    rw [hs, he]
    rfl
  · rw [hq]
    exact lastOpt_eq_none _
  · rw [hr]
    exact lastOpt_eq_none _

/-- Witness for C9: the empty stream returns the bare accumulator — the
`streaming_response` key holds `""` and the other two keys are absent. -/
theorem response_keys_presence_witness :
    (linesTokens [] = [] → (initialResponseDict, "").1.streaming_response = "") ∧
    ((initialResponseDict, "").1.query = none ↔ linesQuery [] = []) ∧
    ((initialResponseDict, "").1.relatedSearches = none ↔ linesRelated [] = []) :=
  response_keys_presence true [] (initialResponseDict, "") rfl

/-- C10: the accumulator returned by `handle_response` is a function of
the line sequence alone — the verbose console-echo flag `prints` changes
only the console output, never any field of the result (and two runs on
the same lines trivially agree, the embedding being deterministic). -/
theorem prints_noninterference (lines : List String) (p1 p2 : Bool) :
    Option.map Prod.fst (handle_response p1 lines) =
      Option.map Prod.fst (handle_response p2 lines) :=
  handle_response_aux_fst p1 p2 lines initialResponseDict "" ""
